import Mathlib

/-!
Verification development for the i-ris-calendar news pipeline
(`fetchNewsContent` and `fetchNewsData` from the page component).

The two source functions are shallowly embedded:

* network fetches become `Except Unit _` inputs (an `.error` models a
  non-ok HTTP status or a transport error caught by the `try`/`catch`);
* the cheerio document is modelled by the data the queries return:
  an `Anchor` records the `href` attribute, the visible text and which
  structural link selectors of the fixed cascade it matches; an
  `ArticleDoc` records, for each content selector of the cascade, the
  combined text of its matches (`none` when the selector matches no
  element) plus the body text;
* the JavaScript string operations (`trim`, `replace(/\s+/g, ...)`,
  `replace(/\n\s*\n/g, ...)`, `substring`, `startsWith`) are modelled
  character by character over `List Char`, with the JavaScript
  whitespace class.
-/

namespace IrisNews

/-- The JavaScript whitespace class `\s` (also the set removed by
`String.prototype.trim`): tab through carriage return, space, NBSP,
Ogham space mark, the U+2000..U+200A spaces, line/paragraph separators,
narrow NBSP, medium mathematical space, ideographic space, BOM. -/
def isWs (c : Char) : Bool :=
  let n := c.toNat
  (decide (9 ≤ n) && decide (n ≤ 13)) || n == 32 || n == 160 || n == 0x1680 ||
  (decide (0x2000 ≤ n) && decide (n ≤ 0x200A)) || n == 0x2028 || n == 0x2029 ||
  n == 0x202F || n == 0x205F || n == 0x3000 || n == 0xFEFF

/-- `isPre needle hay`: `needle` is a leading piece of `hay`
(JavaScript `hay.startsWith(needle)`). -/
def isPre : List Char → List Char → Bool
  | [], _ => true
  | _ :: _, [] => false
  | c :: cs, d :: ds => c == d && isPre cs ds

/-- `hasSubstr hay needle`: `needle` occurs contiguously in `hay`
(the substring test of the CSS attribute selector `[href*=...]`). -/
def hasSubstr : List Char → List Char → Bool
  | [], needle => needle.isEmpty
  | c :: t, needle => isPre needle (c :: t) || hasSubstr t needle

/-- JavaScript `s.startsWith(p)`. -/
def jsStartsWith (s p : String) : Bool := isPre p.data s.data

/-- JavaScript `s.trim()`: strip leading and trailing `\s` characters. -/
def jsTrim (s : String) : String :=
  (((s.data.dropWhile isWs).reverse.dropWhile isWs).reverse).asString

/-- One pass of `replace(/\s+/g, ' ')`: the boolean records whether the
previous character was whitespace (so the current run already emitted
its single space). -/
def collapseWsAux : List Char → Bool → List Char
  | [], _ => []
  | c :: rest, prevWs =>
    if isWs c then
      if prevWs then collapseWsAux rest true else ' ' :: collapseWsAux rest true
    else c :: collapseWsAux rest false

/-- JavaScript `s.replace(/\s+/g, ' ')`: every maximal run of whitespace
characters becomes a single space. -/
def collapseWs (l : List Char) : List Char := collapseWsAux l false

/-- Effect of `replace(/\n\s*\n/g, '\n')` on one maximal whitespace run.
A match needs two newlines with only whitespace between them, so a match
lies inside a maximal whitespace run; greedy matching with backtracking
makes the single match of a run span from its first to its last newline,
which is replaced by one newline. A run with fewer than two newlines is
left unchanged. -/
def collapseRun (run : List Char) : List Char :=
  if 2 ≤ run.count '\n' then
    run.takeWhile (fun c => c != '\n') ++
      '\n' :: (run.reverse.takeWhile (fun c => c != '\n')).reverse
  else run

/-- Scanner for `replace(/\n\s*\n/g, '\n')`: buffers the current
whitespace run (in reverse) and flushes it through `collapseRun` at each
non-whitespace character and at the end. -/
def cbAux : List Char → List Char → List Char
  | [], buf => collapseRun buf.reverse
  | c :: rest, buf =>
    if isWs c then cbAux rest (c :: buf)
    else collapseRun buf.reverse ++ c :: cbAux rest []

/-- JavaScript `s.replace(/\n\s*\n/g, '\n')`. -/
def collapseBlank (l : List Char) : List Char := cbAux l []

/-- The cleanup chain of `fetchNewsContent`:
`content.replace(/\s+/g, ' ').replace(/\n\s*\n/g, '\n').substring(0, 1000)`. -/
def normalizeContent (s : String) : String :=
  ((collapseBlank (collapseWs s.data)).take 1000).asString

/-- Returned by `fetchNewsContent` when the whole `try` block threw
(bad HTTP status or transport error). -/
def fetchErrorPlaceholder : String := "コンテンツの取得中にエラーが発生しました"

/-- Returned by `fetchNewsContent` when the normalized content is empty. -/
def noContentPlaceholder : String := "コンテンツを取得できませんでした"

/-- Content stored on the fallback path of `fetchNewsData`, which skips
calling `fetchNewsContent`. -/
def fetchingPlaceholder : String := "コンテンツを取得中..."

/-- Title of the total-failure sentinel item of `fetchNewsData`. -/
def listingErrorTitle : String := "エラー"

/-- Content of the total-failure sentinel item of `fetchNewsData`. -/
def listingErrorContent : String :=
  "ニュースの取得中にエラーが発生しました。ネットワーク接続を確認してください。"

/-- The fixed origin used to resolve root-relative hrefs. -/
def siteOrigin : String := "https://iris.dive2ent.com"

/-- An article page as seen through the cheerio queries of
`fetchNewsContent`: for each selector of the content cascade, the
combined text of its matched elements (`none` when `$(selector).length`
is `0`), plus the body text (`$('body')` always matches in a loaded
document). -/
structure ArticleDoc where
  articleText : Option String
  articleContentText : Option String
  postContentText : Option String
  entryContentText : Option String
  mainText : Option String
  contentClassText : Option String
  contentIdText : Option String
  bodyText : String
  deriving DecidableEq

/-- The content cascade of `fetchNewsContent`, in source order:
`article`, `.article-content`, `.post-content`, `.entry-content`,
`main`, `.content`, `#content`. -/
def contentSelTexts (d : ArticleDoc) : List (Option String) :=
  [d.articleText, d.articleContentText, d.postContentText, d.entryContentText,
   d.mainText, d.contentClassText, d.contentIdText]

/-- The selector loop of `fetchNewsContent`: take the first selector
with at least one match and use its trimmed text; `""` when none
matches. -/
def firstContent : List (Option String) → String
  | [] => ""
  | some t :: _ => jsTrim t
  | none :: rest => firstContent rest

/-- `fetchNewsContent` before cleanup: the first matching selector's
trimmed text, or (because `if (!content)` also fires when that text is
empty) the trimmed body text. -/
def rawContent (d : ArticleDoc) : String :=
  let c := firstContent (contentSelTexts d)
  if c = "" then jsTrim d.bodyText else c

/-- The successful-fetch path of `fetchNewsContent`. -/
def fetchNewsContentSuccess (d : ArticleDoc) : String :=
  let c := normalizeContent (rawContent d)
  if c = "" then noContentPlaceholder else c

/-- `fetchNewsContent`: the fetched article document, or `.error` when
the fetch failed; the `catch` turns any failure into a fixed
placeholder. -/
def fetchNewsContent : Except Unit ArticleDoc → String
  | .error _ => fetchErrorPlaceholder
  | .ok d => fetchNewsContentSuccess d

/-- An anchor element of the listing page as seen through the cheerio
queries of `fetchNewsData`: its `href` attribute (`none` when absent),
its visible text, and whether it lies under an element with class
`news-item`, `article-title`, `post-title`, or inside an `h2` / `h3`
heading. -/
structure Anchor where
  href : Option String
  text : String
  underNewsItem : Bool
  underArticleTitle : Bool
  underPostTitle : Bool
  underH2 : Bool
  underH3 : Bool
  deriving DecidableEq

/-- The link-selector cascade of `fetchNewsData`, in source order:
`a[href*="/news/"]`, `.news-item a`, `.article-title a`,
`.post-title a`, `h2 a`, `h3 a`. -/
inductive LinkSel
  | newsHref
  | newsItemAncestor
  | articleTitleAncestor
  | postTitleAncestor
  | h2Ancestor
  | h3Ancestor
  deriving DecidableEq

/-- Whether one anchor is selected by one pattern of the cascade. -/
def anchorMatches : LinkSel → Anchor → Bool
  | .newsHref, a =>
    match a.href with
    | some h => hasSubstr h.data "/news/".data
    | none => false
  | .newsItemAncestor, a => a.underNewsItem
  | .articleTitleAncestor, a => a.underArticleTitle
  | .postTitleAncestor, a => a.underPostTitle
  | .h2Ancestor, a => a.underH2
  | .h3Ancestor, a => a.underH3

/-- `$(selector)` for a link selector: the matching anchors in document
order. -/
def selectAnchors (doc : List Anchor) (s : LinkSel) : List Anchor :=
  doc.filter (anchorMatches s)

/-- The cascade in source order. -/
def linkSelList : List LinkSel :=
  [.newsHref, .newsItemAncestor, .articleTitleAncestor, .postTitleAncestor,
   .h2Ancestor, .h3Ancestor]

/-- The `for (const selector of linkSelectors)` loop with its
`if (links.length > 0) ... break`: the match set of the first selector
that matches at least one anchor, `none` when no selector matches
(`foundLinks` stays `false`). -/
def firstNonempty : List LinkSel → List Anchor → Option (List Anchor)
  | [], _ => none
  | s :: rest, doc =>
    if 0 < (selectAnchors doc s).length then some (selectAnchors doc s)
    else firstNonempty rest doc

/-- `href.startsWith('/') ? origin + href : href`. -/
def resolveHref (href : String) : String :=
  if jsStartsWith href "/" then siteOrigin ++ href else href

/-- A news item as constructed by `fetchNewsData` (the `date?` field of
the interface is optional, hence `Option`). -/
structure NewsItem where
  title : String
  link : String
  content : String
  date : Option String
  deriving DecidableEq

/-- The body of the matched-path loop for one anchor: skip it unless
both `href` and the trimmed text are non-empty (JavaScript truthiness of
`href && title`; a missing href attribute and an empty one are both
falsy, so they are modelled together through `getD ""`), otherwise build
the item, fetching its content through the extractor `ex` (which stands
for `await fetchNewsContent(fullUrl)`). -/
def procAnchor (ex : String → String) (today : String) (a : Anchor) :
    Option NewsItem :=
  if a.href.getD "" ≠ "" ∧ jsTrim a.text ≠ "" then
    some ⟨jsTrim a.text, resolveHref (a.href.getD ""),
      ex (resolveHref (a.href.getD "")), some today⟩
  else none

/-- The matched path of `fetchNewsData`: `links.slice(0, 5)` then the
conditional pushes. -/
def processMatched (links : List Anchor) (ex : String → String)
    (today : String) : List NewsItem :=
  (links.take 5).filterMap (procAnchor ex today)

/-- The body of the fallback `$('a').each` callback for one anchor:
emit it when `href && title && title.length > 10` (missing and empty
href both falsy, modelled through `getD ""`), with the fixed fetching
placeholder as content. -/
def fbAnchor (today : String) (a : Anchor) : Option NewsItem :=
  if a.href.getD "" ≠ "" ∧ jsTrim a.text ≠ "" ∧ 10 < (jsTrim a.text).length then
    some ⟨jsTrim a.text, resolveHref (a.href.getD ""), fetchingPlaceholder,
      some today⟩
  else none

/-- The fallback path of `fetchNewsData`: the `each` callback returns
`false` as soon as the anchor index reaches 5, so only the first 5
anchors of the document are examined. -/
def processFallback (doc : List Anchor) (today : String) : List NewsItem :=
  (doc.take 5).filterMap (fbAnchor today)

/-- The successful-fetch path of `fetchNewsData`. -/
def fetchNewsDataSuccess (doc : List Anchor) (ex : String → String)
    (today : String) : List NewsItem :=
  match firstNonempty linkSelList doc with
  | some links => processMatched links ex today
  | none => processFallback doc today

/-- `fetchNewsData`: the fetched listing document, or `.error` when the
listing fetch failed; the `catch` returns the single sentinel item.
`today` stands for `new Date().toLocaleDateString('ja-JP')`. -/
def fetchNewsData (r : Except Unit (List Anchor)) (ex : String → String)
    (today : String) : List NewsItem :=
  match r with
  | .ok doc => fetchNewsDataSuccess doc ex today
  | .error _ =>
    [⟨listingErrorTitle, "", listingErrorContent, some today⟩]

/-- Absoluteness of a URL, as the spec uses the word for http pages. -/
def isAbsoluteUrl (s : String) : Bool :=
  jsStartsWith s "http://" || jsStartsWith s "https://"

/-- The spec's description of the fallback filter: trimmed visible text
longer than 10 characters and a non-empty href. -/
def fbQualifies (a : Anchor) : Bool :=
  (a.href.getD "" != "") && decide (10 < (jsTrim a.text).length)

/-- The item the fallback builds for a qualifying anchor. -/
def mkFbItem (today : String) (a : Anchor) : NewsItem :=
  ⟨jsTrim a.text, resolveHref (a.href.getD ""), fetchingPlaceholder, some today⟩

/-- Modelled from the spec (sentence of C1): the claimed fallback
result, "the first 5 anchors of the whole document whose trimmed
visible text length exceeds 10 characters and whose href is non-empty". -/
def specFallbackItems (doc : List Anchor) (today : String) : List NewsItem :=
  ((doc.filter fbQualifies).take 5).map (mkFbItem today)

/-! ## Helper lemmas about the normalization chain -/

/-- Every character emitted by the whitespace collapse is either a space
or a non-whitespace input character, so no newline survives it. -/
theorem nl_not_mem_collapseWsAux : ∀ (l : List Char) (b : Bool),
    '\n' ∉ collapseWsAux l b := by
  intro l
  induction l with
  | nil => intro b; simp [collapseWsAux]
  | cons c rest ih =>
    intro b
    by_cases hw : isWs c
    · cases b with
      | true => simpa [collapseWsAux, hw] using ih true
      | false =>
        have hstep : collapseWsAux (c :: rest) false =
            ' ' :: collapseWsAux rest true := by
          simp [collapseWsAux, hw]
        rw [hstep]
        intro hmem
        rcases List.mem_cons.mp hmem with h | h
        · exact absurd h (by decide)
        · exact ih true h
    · have hc : ('\n' : Char) ≠ c := by
        intro heq
        apply hw
        rw [← heq]
        decide
      have hstep : collapseWsAux (c :: rest) b = c :: collapseWsAux rest false := by
        simp [collapseWsAux, hw]
      rw [hstep]
      intro hmem
      rcases List.mem_cons.mp hmem with h | h
      · exact hc h
      · exact ih false h

/-- A whitespace run without a newline is kept as-is by the blank-line
rule. -/
theorem collapseRun_of_no_nl (run : List Char) (h : '\n' ∉ run) :
    collapseRun run = run := by
  have hz : run.count '\n' = 0 := List.count_eq_zero.mpr h
  simp [collapseRun, hz]

/-- On a newline-free input the blank-line scanner is the identity. -/
theorem cbAux_of_no_nl : ∀ (l buf : List Char), '\n' ∉ l → '\n' ∉ buf →
    cbAux l buf = buf.reverse ++ l := by
  intro l
  induction l with
  | nil =>
    intro buf _ hbuf
    have hrev : '\n' ∉ buf.reverse := by simpa using hbuf
    simp [cbAux, collapseRun_of_no_nl _ hrev]
  | cons c rest ih =>
    intro buf hl hbuf
    have hc : c ≠ '\n' := fun h => hl (by simp [h])
    have hrest : '\n' ∉ rest := fun h => hl (List.mem_cons_of_mem _ h)
    by_cases hw : isWs c
    · have hbuf' : '\n' ∉ c :: buf := by
        intro h
        rcases List.mem_cons.mp h with h | h
        · exact hc h.symm
        · exact hbuf h
      rw [show cbAux (c :: rest) buf = cbAux rest (c :: buf) from by
        simp [cbAux, hw]]
      rw [ih (c :: buf) hrest hbuf']
      simp
    · have hrev : '\n' ∉ buf.reverse := by simpa using hbuf
      rw [show cbAux (c :: rest) buf =
          collapseRun buf.reverse ++ c :: cbAux rest [] from by simp [cbAux, hw]]
      rw [collapseRun_of_no_nl _ hrev, ih [] hrest (by simp)]
      simp

/-- The blank-line replacement leaves a newline-free string unchanged. -/
theorem collapseBlank_of_no_nl (l : List Char) (h : '\n' ∉ l) :
    collapseBlank l = l := by
  simpa using cbAux_of_no_nl l [] h (by simp)

/-- After the whitespace collapse no newline remains, so the blank-line
replacement that follows it in the source is a no-op. -/
theorem collapseBlank_collapseWs (l : List Char) :
    collapseBlank (collapseWs l) = collapseWs l :=
  collapseBlank_of_no_nl _ (nl_not_mem_collapseWsAux l false)

/-! ## Claims about the Content Extractor -/

/-- C10: on the successful-fetch path the string returned by the
Content Extractor contains no newline character. The whitespace
collapse replaces every newline by a space before the blank-line rule
is applied, the blank-line rule then finds nothing to rewrite, and the
empty-content placeholder is itself a single line, so the output is
always a single line. -/
theorem fetchNewsContentSuccess_no_newline (d : ArticleDoc) :
    '\n' ∉ (fetchNewsContentSuccess d).data := by
  have key : '\n' ∉ (normalizeContent (rawContent d)).data := by
    intro hmem
    have h2 : '\n' ∈ collapseBlank (collapseWs (rawContent d).data) :=
      List.take_subset _ _ hmem
    rw [collapseBlank_collapseWs] at h2
    exact nl_not_mem_collapseWsAux _ false h2
  simp only [fetchNewsContentSuccess]
  split
  · decide
  · exact key

/-- An article document whose matched article region holds a blank-line
run, used to exercise normalization on a multi-line input. -/
def multilineDoc : ArticleDoc :=
  ⟨some "abc\n\ndef", none, none, none, none, none, none, ""⟩

/-- C2 (counterexample): on a multi-line article text holding a
blank-line run, the extractor returns the text with the blank-line run
collapsed to a single space, not to a single newline as the claim
states: the whole run "\n\n" is whitespace, so the first replacement
already turned it into one space. -/
theorem normalize_counterexample :
    fetchNewsContentSuccess multilineDoc = "abc def" ∧
    fetchNewsContentSuccess multilineDoc ≠ "abc\ndef" := by
  constructor
  · decide
  · decide

/-- C2 (amended): normalization collapses every run of whitespace
characters, newline runs included, to a single space and truncates to
the first 1000 characters; the blank-line step of the source never
rewrites anything because the preceding collapse already removed every
newline. -/
theorem normalizeContent_spec (s : String) :
    normalizeContent s = ((collapseWs s.data).take 1000).asString ∧
    (normalizeContent s).length ≤ 1000 := by
  constructor
  · unfold normalizeContent
    rw [collapseBlank_collapseWs]
  · show ((collapseBlank (collapseWs s.data)).take 1000).length ≤ 1000
    exact List.length_take_le _ _

/-- C4: for every fetched article document the successful-fetch path of
the Content Extractor returns between 1 and 1000 characters, and when
the normalized text is empty it substitutes the fixed placeholder, so
the result is never the empty string. -/
theorem fetchNewsContentSuccess_length (d : ArticleDoc) :
    1 ≤ (fetchNewsContentSuccess d).length ∧
    (fetchNewsContentSuccess d).length ≤ 1000 ∧
    (normalizeContent (rawContent d) = "" →
      fetchNewsContentSuccess d = noContentPlaceholder) := by
  by_cases h : normalizeContent (rawContent d) = ""
  · have hres : fetchNewsContentSuccess d = noContentPlaceholder := by
      simp [fetchNewsContentSuccess, h]
    exact ⟨by rw [hres]; decide, by rw [hres]; decide, fun _ => hres⟩
  · have hres : fetchNewsContentSuccess d = normalizeContent (rawContent d) := by
      simp [fetchNewsContentSuccess, h]
    refine ⟨?_, ?_, fun hh => absurd hh h⟩
    · rw [hres]
      have hnil : (normalizeContent (rawContent d)).data ≠ [] := by
        intro hd
        apply h
        apply String.ext
        rw [hd]
      have hlen : (normalizeContent (rawContent d)).data.length ≠ 0 := by
        intro h0
        exact hnil (List.length_eq_zero.mp h0)
      show 1 ≤ (normalizeContent (rawContent d)).data.length
      omega
    · rw [hres]
      show ((collapseBlank (collapseWs (rawContent d).data)).take 1000).length ≤ 1000
      exact List.length_take_le _ _

/-- An article document in which no content selector matches and the
body text is empty; normalization yields the empty string on it. -/
def emptyDoc : ArticleDoc := ⟨none, none, none, none, none, none, none, ""⟩

/-- C4 (witness): on the all-empty article document the extractor
returns the non-empty fixed placeholder. -/
theorem fetchNewsContentSuccess_length_witness :
    1 ≤ (fetchNewsContentSuccess emptyDoc).length ∧
    fetchNewsContentSuccess emptyDoc = noContentPlaceholder :=
  ⟨(fetchNewsContentSuccess_length emptyDoc).1,
   (fetchNewsContentSuccess_length emptyDoc).2.2 (by decide)⟩

/-- Projection of a news item to the fields the Link Discoverer fills
in before the Content Extractor runs. -/
def titleLink (it : NewsItem) : String × String := (it.title, it.link)

/-- The matched-path loop fills title and link independently of what
the content extractor returns for each item. -/
theorem filterMap_procAnchor_titleLink (td : String) (e₁ e₂ : String → String) :
    ∀ l : List Anchor,
      (l.filterMap (procAnchor e₁ td)).map titleLink =
      (l.filterMap (procAnchor e₂ td)).map titleLink := by
  intro l
  induction l with
  | nil => rfl
  | cons a rest ih =>
    simp only [List.filterMap_cons]
    by_cases hcond : a.href.getD "" ≠ "" ∧ jsTrim a.text ≠ ""
    · simp only [procAnchor, if_pos hcond, List.map_cons, titleLink, ih]
    · simp only [procAnchor, if_neg hcond]
      exact ih

/-- C8: an article fetch failure makes the Content Extractor return the
fixed non-empty error placeholder instead of raising (in the embedding
`fetchNewsContent` is total), and the titles and links of the items the
Link Discoverer emits do not depend on what the extractor returned, so
an item whose article fetch failed is still emitted with its real title
and link. -/
theorem articleFailure_placeholder (doc : List Anchor) (e₁ e₂ : String → String)
    (td : String) :
    fetchNewsContent (Except.error ()) = fetchErrorPlaceholder ∧
    0 < fetchErrorPlaceholder.length ∧
    (fetchNewsDataSuccess doc e₁ td).map titleLink =
      (fetchNewsDataSuccess doc e₂ td).map titleLink := by
  refine ⟨rfl, by decide, ?_⟩
  unfold fetchNewsDataSuccess
  cases firstNonempty linkSelList doc with
  | none => rfl
  | some links =>
    simp only [processMatched]
    exact filterMap_procAnchor_titleLink td e₁ e₂ (links.take 5)

/-! ## Claims about the Link Discoverer -/

/-- C5: when the listing fetch fails the Link Discoverer returns exactly
one item, the total-failure sentinel with title エラー, empty link,
non-empty content and the current date, and (being a total function in
the embedding) never raises to its caller. -/
theorem listingFailure_sentinel (ex : String → String) (today : String) :
    fetchNewsData (Except.error ()) ex today =
      [⟨listingErrorTitle, "", listingErrorContent, some today⟩] ∧
    listingErrorTitle = "エラー" ∧ listingErrorContent ≠ "" :=
  ⟨rfl, rfl, by decide⟩

/-- C9: on every path, failure sentinel, matched-pattern or fallback,
the Link Discoverer returns at most 5 items. -/
theorem newsItems_le_five (r : Except Unit (List Anchor)) (ex : String → String)
    (today : String) : (fetchNewsData r ex today).length ≤ 5 := by
  cases r with
  | error e => simp [fetchNewsData]
  | ok doc =>
    show (fetchNewsDataSuccess doc ex today).length ≤ 5
    unfold fetchNewsDataSuccess
    cases hfn : firstNonempty linkSelList doc with
    | none =>
      show (processFallback doc today).length ≤ 5
      calc ((doc.take 5).filterMap (fbAnchor today)).length
          ≤ (doc.take 5).length := List.length_filterMap_le _ _
        _ ≤ 5 := List.length_take_le _ _
    | some links =>
      show (processMatched links ex today).length ≤ 5
      calc ((links.take 5).filterMap (procAnchor ex today)).length
          ≤ (links.take 5).length := List.length_filterMap_le _ _
        _ ≤ 5 := List.length_take_le _ _

/-- C7: a root-relative href is resolved by prefixing the fixed origin;
any href that does not start with a slash, an already-absolute one in
particular, passes through unchanged. -/
theorem resolveHref_spec (href : String) :
    (jsStartsWith href "/" = true → resolveHref href = siteOrigin ++ href) ∧
    (isAbsoluteUrl href = true → resolveHref href = href) ∧
    (jsStartsWith href "/" = false → resolveHref href = href) := by
  refine ⟨fun h => by simp [resolveHref, h], ?_, fun h => by simp [resolveHref, h]⟩
  intro habs
  have hns : jsStartsWith href "/" = false := by
    unfold isAbsoluteUrl at habs
    unfold jsStartsWith at habs ⊢
    cases hd : href.data with
    | nil => rfl
    | cons c cs =>
      rw [hd] at habs
      have habs' : (isPre ['h', 't', 't', 'p', ':', '/', '/'] (c :: cs) ||
          isPre ['h', 't', 't', 'p', 's', ':', '/', '/'] (c :: cs)) = true := habs
      have hc : c = 'h' := by
        simp only [isPre, Bool.or_eq_true, Bool.and_eq_true, beq_iff_eq] at habs'
        rcases habs' with ⟨h1, _⟩ | ⟨h1, _⟩
        · exact h1.symm
        · exact h1.symm
      subst hc
      rfl
  simp [resolveHref, hns]

/-- C7 (witness): the two concrete resolutions of the spec example. -/
theorem resolveHref_spec_witness :
    resolveHref "/news/42" = siteOrigin ++ "/news/42" ∧
    resolveHref "https://example.com/a" = "https://example.com/a" :=
  ⟨(resolveHref_spec "/news/42").1 (by decide),
   (resolveHref_spec "https://example.com/a").2.1 (by decide)⟩

/-- C6: when no cascade selector matches, the fallback result does not
depend on the content extractor at all (so the Content Extractor is
never invoked for it), has at most 5 items, and every item carries the
fixed fetching placeholder as content. -/
theorem fallback_placeholder_no_extract (doc : List Anchor)
    (e₁ e₂ : String → String) (td : String)
    (hnone : firstNonempty linkSelList doc = none)
    (_hlong : ∃ a ∈ doc, 10 < (jsTrim a.text).length) :
    fetchNewsDataSuccess doc e₁ td = fetchNewsDataSuccess doc e₂ td ∧
    (fetchNewsDataSuccess doc e₁ td).length ≤ 5 ∧
    ∀ it ∈ fetchNewsDataSuccess doc e₁ td, it.content = fetchingPlaceholder := by
  have hfb : ∀ e : String → String,
      fetchNewsDataSuccess doc e td = processFallback doc td := by
    intro e
    unfold fetchNewsDataSuccess
    rw [hnone]
  refine ⟨by rw [hfb e₁, hfb e₂], ?_, ?_⟩
  · rw [hfb e₁]
    calc ((doc.take 5).filterMap (fbAnchor td)).length
        ≤ (doc.take 5).length := List.length_filterMap_le _ _
      _ ≤ 5 := List.length_take_le _ _
  · rw [hfb e₁]
    intro it hit
    rcases List.mem_filterMap.mp hit with ⟨a, _, hfa⟩
    unfold fbAnchor at hfa
    by_cases hcond :
        a.href.getD "" ≠ "" ∧ jsTrim a.text ≠ "" ∧ 10 < (jsTrim a.text).length
    · rw [if_pos hcond] at hfa
      rw [← Option.some.inj hfa]
    · rw [if_neg hcond] at hfa
      exact absurd hfa (by simp)

/-- A one-anchor listing document on which no cascade selector matches
and whose anchor has a long trimmed text. -/
def fallbackDocW : List Anchor :=
  [⟨some "/schedule-list", "a very long anchor text here", false, false, false,
    false, false⟩]

/-- C6 (witness): the fallback conclusion at a concrete document with
two distinct extractors. -/
theorem fallback_placeholder_witness :
    fetchNewsDataSuccess fallbackDocW (fun _ => "") "d" =
      fetchNewsDataSuccess fallbackDocW (fun _ => "x") "d" ∧
    (fetchNewsDataSuccess fallbackDocW (fun _ => "") "d").length ≤ 5 ∧
    ∀ it ∈ fetchNewsDataSuccess fallbackDocW (fun _ => "") "d",
      it.content = fetchingPlaceholder :=
  fallback_placeholder_no_extract fallbackDocW (fun _ => "") (fun _ => "x") "d"
    (by decide) (by decide)

/-- A listing document whose only anchor matches the first cascade
selector but has whitespace-only visible text. -/
def wsTitleDoc : List Anchor :=
  [⟨some "/news/1", "   ", false, false, false, false, false⟩]

/-- A listing document whose only anchor matches the first cascade
selector through a relative, non-root href. -/
def relHrefDoc : List Anchor :=
  [⟨some "x/news/1", "A long enough title", false, false, false, false, false⟩]

/-- C3 (counterexample): a document with a matching anchor whose title
trims to empty yields zero items, not "between 1 and 5"; a document
whose matching anchor has the relative href x/news/1 yields an item
whose link is left relative, not absolute. -/
theorem matched_path_counterexample :
    ((selectAnchors wsTitleDoc LinkSel.newsHref).length = 1 ∧
      fetchNewsDataSuccess wsTitleDoc (fun _ => "") "d" = []) ∧
    ((selectAnchors relHrefDoc LinkSel.newsHref).length = 1 ∧
      (fetchNewsDataSuccess relHrefDoc (fun _ => "") "d").length = 1 ∧
      (fetchNewsDataSuccess relHrefDoc (fun _ => "") "d").all
        (fun it => !(isAbsoluteUrl it.link)) = true) := by
  decide

/-- C3 (amended): when at least one anchor matches the first cascade
selector, discovery returns between 0 and 5 items; every returned item
has a non-empty title and a link obtained by resolving some non-empty
href (prefixed with the origin when root-relative, unchanged
otherwise). -/
theorem matched_path_items (doc : List Anchor) (ex : String → String)
    (td : String) (h : 0 < (selectAnchors doc LinkSel.newsHref).length) :
    (fetchNewsDataSuccess doc ex td).length ≤ 5 ∧
    ∀ it ∈ fetchNewsDataSuccess doc ex td,
      it.title ≠ "" ∧ ∃ hs : String, hs ≠ "" ∧ it.link = resolveHref hs := by
  have hstep : firstNonempty linkSelList doc =
      if 0 < (selectAnchors doc LinkSel.newsHref).length then
        some (selectAnchors doc LinkSel.newsHref)
      else
        firstNonempty [LinkSel.newsItemAncestor, LinkSel.articleTitleAncestor,
          LinkSel.postTitleAncestor, LinkSel.h2Ancestor, LinkSel.h3Ancestor]
          doc := rfl
  have hfst : firstNonempty linkSelList doc =
      some (selectAnchors doc LinkSel.newsHref) := by
    rw [hstep, if_pos h]
  have hres : fetchNewsDataSuccess doc ex td =
      processMatched (selectAnchors doc LinkSel.newsHref) ex td := by
    unfold fetchNewsDataSuccess
    rw [hfst]
  refine ⟨?_, ?_⟩
  · rw [hres]
    calc (((selectAnchors doc LinkSel.newsHref).take 5).filterMap
            (procAnchor ex td)).length
        ≤ ((selectAnchors doc LinkSel.newsHref).take 5).length :=
          List.length_filterMap_le _ _
      _ ≤ 5 := List.length_take_le _ _
  · rw [hres]
    intro it hit
    rcases List.mem_filterMap.mp hit with ⟨a, _, hfa⟩
    unfold procAnchor at hfa
    by_cases hcond : a.href.getD "" ≠ "" ∧ jsTrim a.text ≠ ""
    · rw [if_pos hcond] at hfa
      have heq := Option.some.inj hfa
      refine ⟨?_, a.href.getD "", hcond.1, ?_⟩
      · rw [← heq]
        exact hcond.2
      · rw [← heq]
    · rw [if_neg hcond] at hfa
      exact absurd hfa (by simp)

/-- A listing document whose only anchor matches the first cascade
selector with a root-relative href and a real title. -/
def matchedDocW : List Anchor :=
  [⟨some "/news/1", "Title here", false, false, false, false, false⟩]

/-- C3 (witness): the amended conclusion at a concrete matching
document. -/
theorem matched_path_items_witness :
    (fetchNewsDataSuccess matchedDocW (fun _ => "") "d").length ≤ 5 ∧
    ∀ it ∈ fetchNewsDataSuccess matchedDocW (fun _ => "") "d",
      it.title ≠ "" ∧ ∃ hs : String, hs ≠ "" ∧ it.link = resolveHref hs :=
  matched_path_items matchedDocW (fun _ => "") "d" (by decide)

/-- A string longer than 10 characters is non-empty. -/
theorem str_ne_empty_of_len_gt (s : String) (h : 10 < s.length) : s ≠ "" := by
  intro he
  rw [he] at h
  exact absurd h (by decide)

/-- The fallback loop body agrees pointwise with filtering on the
spec-side qualification test and building the fallback item. -/
theorem filterMap_fbAnchor_eq (td : String) :
    ∀ l : List Anchor,
      l.filterMap (fbAnchor td) = (l.filter fbQualifies).map (mkFbItem td) := by
  intro l
  induction l with
  | nil => rfl
  | cons a rest ih =>
    simp only [List.filterMap_cons, List.filter_cons]
    by_cases hh : a.href.getD "" = ""
    · have hq : fbQualifies a = false := by simp [fbQualifies, hh]
      have hcond :
          ¬(a.href.getD "" ≠ "" ∧ jsTrim a.text ≠ "" ∧
            10 < (jsTrim a.text).length) :=
        fun hc => hc.1 hh
      simp [fbAnchor, hcond, hq, ih]
    · by_cases hlen : 10 < (jsTrim a.text).length
      · have hq : fbQualifies a = true := by
          simp [fbQualifies, hh, hlen]
        have hcond :
            a.href.getD "" ≠ "" ∧ jsTrim a.text ≠ "" ∧
              10 < (jsTrim a.text).length :=
          ⟨hh, str_ne_empty_of_len_gt _ hlen, hlen⟩
        simp [fbAnchor, hcond, hq, ih, mkFbItem]
      · have hq : fbQualifies a = false := by simp [fbQualifies, hlen]
        have hcond :
            ¬(a.href.getD "" ≠ "" ∧ jsTrim a.text ≠ "" ∧
              10 < (jsTrim a.text).length) :=
          fun hc => hlen hc.2.2
        simp [fbAnchor, hcond, hq, ih]

/-- An anchor whose trimmed text is too short to qualify for the
fallback. -/
def shortAnchor : Anchor := ⟨some "/a", "ab", false, false, false, false, false⟩

/-- A six-anchor document matching no cascade selector, in which the
only anchor qualifying for the fallback is the sixth one. -/
def lateQualifyingDoc : List Anchor :=
  [shortAnchor, shortAnchor, shortAnchor, shortAnchor, shortAnchor,
   ⟨some "/long-article-page", "a very long anchor title", false, false, false,
    false, false⟩]

/-- C1 (counterexample): on a document whose only qualifying anchor is
the sixth one, no cascade selector matches, the claimed fallback result
(the first five qualifying anchors of the whole document) is non-empty,
but the code returns no items: the loop gives up after the first five
anchors of the document. -/
theorem fallback_counterexample :
    firstNonempty linkSelList lateQualifyingDoc = none ∧
    fetchNewsDataSuccess lateQualifyingDoc (fun _ => "") "d" = [] ∧
    specFallbackItems lateQualifyingDoc "d" ≠ [] := by
  decide

/-- C1 (amended): when no cascade selector matches, the fallback result
is exactly the claimed filter applied to only the first 5 anchors of
the document: anchors after the fifth are never examined, qualifying or
not. -/
theorem fallback_first_five_anchors (doc : List Anchor) (ex : String → String)
    (td : String) (hnone : firstNonempty linkSelList doc = none) :
    fetchNewsDataSuccess doc ex td = specFallbackItems (doc.take 5) td := by
  have h1 : fetchNewsDataSuccess doc ex td = processFallback doc td := by
    unfold fetchNewsDataSuccess
    rw [hnone]
  rw [h1]
  show (doc.take 5).filterMap (fbAnchor td) = specFallbackItems (doc.take 5) td
  rw [filterMap_fbAnchor_eq]
  unfold specFallbackItems
  have hle : ((doc.take 5).filter fbQualifies).length ≤ 5 :=
    le_trans (List.length_filter_le _ _) (List.length_take_le _ _)
  rw [List.take_of_length_le hle]

/-- A one-anchor document for a concrete run of the amended fallback
statement. -/
def fallbackDocV : List Anchor :=
  [⟨some "/b", "another quite long title", false, false, false, false, false⟩]

/-- C1 (witness): the amended fallback equation at a concrete
document. -/
theorem fallback_first_five_witness :
    fetchNewsDataSuccess fallbackDocV (fun _ => "") "w" =
      specFallbackItems (fallbackDocV.take 5) "w" :=
  fallback_first_five_anchors fallbackDocV (fun _ => "") "w" (by decide)

end IrisNews
